import Mathlib

/-!
Shallow embedding of the immi-ai repository's request-handling logic.

Server side: `src/immi-ai-app/src/app/api/chat/route.ts` exports a single
`POST` handler that parses `{ question }` from the request body, requests an
embedding, queries a vector index (`topK: 3, includeMetadata: true`), joins
the matches' stored text into a context string, calls a chat-completion
service, and shapes the reply into a fixed envelope; every thrown error is
caught by one `try/catch` that returns `{ error: 'Internal server error' }`
with status 500.

Client side: `src/immi-ai-app/src/app/page.tsx` keeps `messages`, `input`
and `isLoading` state; `handleSubmit` guards on `input.trim()`, appends the
user message, clears the input, sets loading, fetches `/api/chat`, appends
either the answer or a static error message, and clears loading.

Numeric relevance scores are only ever passed through unchanged, never
computed with, so they are modelled by `Int` as an opaque stand-in for the
JavaScript number. Values that may be `undefined`/`null` in JavaScript are
modelled as `Option`.
-/

namespace ImmiAI

/-- Stored metadata of a vector-index match: the passage text and the
document identity, either of which may be absent (`match.metadata?.text`). -/
structure MatchMetadata where
  text : Option String
  docId : Option String
deriving DecidableEq, Repr

/-- One match returned by the vector index: optional stored metadata and a
numeric relevance score (`match.score`). -/
structure QueryMatch where
  metadata : Option MatchMetadata
  score : Int
deriving DecidableEq, Repr

/-- Response of the vector-index query: the ordered list of matches. -/
structure QueryResponse where
  «matches» : List QueryMatch
deriving DecidableEq, Repr

/-- One item of the embedding response's `data` array, holding the vector
(`embeddings.data[0].embedding`). -/
structure EmbeddingItem where
  embedding : List Int
deriving DecidableEq, Repr

/-- Response of the embedding service: the `data` array. -/
structure EmbeddingsResponse where
  data : List EmbeddingItem
deriving DecidableEq, Repr

/-- A role-tagged chat message sent to the completion service. The content
is `Option String` because the handler forwards the raw `question`, which is
`undefined` when the parsed body has no such key. -/
structure ChatMessage where
  role : String
  content : Option String
deriving DecidableEq, Repr

/-- The assistant message inside a completion choice; `content` is
`string | null` in the OpenAI API, hence `Option String`. -/
structure AssistantMessage where
  content : Option String
deriving DecidableEq, Repr

/-- One choice of the completion response (`completion.choices[0]`). -/
structure CompletionChoice where
  message : AssistantMessage
deriving DecidableEq, Repr

/-- Response of the chat-completion service. -/
structure CompletionResponse where
  choices : List CompletionChoice
deriving DecidableEq, Repr

/-- The parsed request body: `const { question } = await req.json()`.
`question` is `none` when the key is absent from the JSON body. -/
structure ReqBody where
  question : Option String
deriving DecidableEq, Repr

/-- One entry of `metadata.sources` in the response envelope: only the
relevance score is exposed. -/
structure SourceEntry where
  relevance_score : Int
deriving DecidableEq, Repr

/-- The `response` part of the success envelope (route.ts lines 57-61). -/
structure ResponsePayload where
  overview : Option String
  key_points : List String
  follow_up : List String
deriving DecidableEq, Repr

/-- The `metadata` part of the success envelope (route.ts lines 62-66). -/
structure ResponseMetadata where
  sources : List SourceEntry
deriving DecidableEq, Repr

/-- The success envelope returned by `NextResponse.json(response)`. -/
structure ChatResponseBody where
  response : ResponsePayload
  metadata : ResponseMetadata
deriving DecidableEq, Repr

/-- The JSON body of an HTTP response: either the success envelope or an
`{ error: ... }` object. -/
inductive RespBody where
  | success (r : ChatResponseBody)
  | failure (error : String)
deriving DecidableEq, Repr

/-- An HTTP response: status code and JSON body. -/
structure HttpResponse where
  status : Nat
  body : RespBody
deriving DecidableEq, Repr

/-- The environment of upstream services the handler calls. Each call may
fail (throw), modelled by `Except Unit`. -/
structure Env where
  embed : Option String → Except Unit EmbeddingsResponse
  query : List Int → Nat → Bool → Except Unit QueryResponse
  complete : List ChatMessage → Except Unit CompletionResponse

/-- Observable upstream calls made during one run of the handler, recorded
in order. -/
inductive Event where
  | embedCalled (input : Option String)
  | queryCalled (vector : List Int) (topK : Nat) (includeMetadata : Bool)
  | completeCalled (messages : List ChatMessage)
deriving DecidableEq, Repr

/-- The stored text of a match as the handler reads it:
`match.metadata?.text || ''` (route.ts line 38). -/
def matchText (m : QueryMatch) : String :=
  (m.metadata.bind MatchMetadata.text).getD ""

/-- The context string built from the matches (route.ts lines 37-39):
`queryResponse.«matches».map((match) => match.metadata?.text || '').join('\n')`. -/
def contextFromMatches (ms : List QueryMatch) : String :=
  String.intercalate "\n" (ms.map matchText)

/-- The system-prompt text (route.ts line 47). -/
def systemPrompt (context : String) : String :=
  "You are an expert immigration assistant. Use this context to answer the question: " ++ context

/-- The message list sent to the completion call (route.ts lines 44-50). -/
def promptMessages (context : String) (question : Option String) : List ChatMessage :=
  [⟨"system", some (systemPrompt context)⟩, ⟨"user", question⟩]

/-- The `metadata.sources` list (route.ts lines 63-65):
`queryResponse.«matches».map((match) => ({ relevance_score: match.score }))`. -/
def sourcesFromMatches (ms : List QueryMatch) : List SourceEntry :=
  ms.map (fun m => ⟨m.score⟩)

/-- The success envelope (route.ts lines 56-67). -/
def mkResponse (overview : Option String) (ms : List QueryMatch) : ChatResponseBody :=
  { response := { overview := overview, key_points := [], follow_up := [] },
    metadata := { sources := sourcesFromMatches ms } }

/-- The single error response of the catch-all (route.ts lines 72-75):
`NextResponse.json({ error: 'Internal server error' }, { status: 500 })`. -/
def errorResponse : HttpResponse :=
  { status := 500, body := .failure "Internal server error" }

/-- The `POST` handler of route.ts. The request body is given already
parsed-or-failed (`await req.json()` throws on a malformed body, landing in
the same catch-all). Accessing `embeddings.data[0].embedding` on an empty
`data` array and `completion.choices[0]` on empty `choices` are JavaScript
`TypeError`s, also caught by the catch-all. Returns the HTTP response
together with the trace of upstream calls made. -/
def POST (env : Env) (body : Except Unit ReqBody) : HttpResponse × List Event :=
  match body with
  | .error _ => (errorResponse, [])
  | .ok b =>
    match env.embed b.question with
    | .error _ => (errorResponse, [.embedCalled b.question])
    | .ok embeddings =>
      match embeddings.data with
      | [] => (errorResponse, [.embedCalled b.question])
      | item :: _ =>
        match env.query item.embedding 3 true with
        | .error _ =>
          (errorResponse,
           [.embedCalled b.question, .queryCalled item.embedding 3 true])
        | .ok queryResponse =>
          let context := contextFromMatches queryResponse.«matches»
          let msgs := promptMessages context b.question
          match env.complete msgs with
          | .error _ =>
            (errorResponse,
             [.embedCalled b.question, .queryCalled item.embedding 3 true,
              .completeCalled msgs])
          | .ok completion =>
            match completion.choices with
            | [] =>
              (errorResponse,
               [.embedCalled b.question, .queryCalled item.embedding 3 true,
                .completeCalled msgs])
            | choice :: _ =>
              ({ status := 200,
                 body := .success (mkResponse choice.message.content queryResponse.«matches») },
               [.embedCalled b.question, .queryCalled item.embedding 3 true,
                .completeCalled msgs])

/-- Extract the `overview` field from a response (none on the error path). -/
def overviewOf (r : HttpResponse) : Option String :=
  match r.body with
  | .success c => c.response.overview
  | .failure _ => none

/-- Extract the `metadata.sources` field from a response (none on the error
path). -/
def sourcesOf (r : HttpResponse) : Option (List SourceEntry) :=
  match r.body with
  | .success c => some c.metadata.sources
  | .failure _ => none

/-!
UI model, from `src/immi-ai-app/src/app/page.tsx`.
-/

/-- The message role union type of page.tsx: `'user' | 'assistant'`. -/
inductive Role where
  | user
  | assistant
deriving DecidableEq, Repr

/-- A chat message of the UI (page.tsx lines 6-9). -/
structure Msg where
  role : Role
  content : String
deriving DecidableEq, Repr

/-- The component state of `Home` (page.tsx lines 25-27): the message list,
the input field's value, and the loading flag. -/
structure UIState where
  messages : List Msg
  input : String
  isLoading : Bool
deriving DecidableEq, Repr

/-- The initial component state: `useState([])`, `useState('')`,
`useState(false)`. -/
def initialState : UIState :=
  { messages := [], input := "", isLoading := false }

/-- The outcome of the `fetch('/api/chat', ...)` call as `handleSubmit`
observes it: a parsed `ChatResponse` on an ok status, a non-2xx HTTP status
(`!response.ok`, which `handleSubmit` turns into a thrown error), or a
thrown network/parse error. -/
inductive FetchOutcome where
  | success (overview : String)
  | httpErrorStatus (status : Nat)
  | networkThrown
deriving DecidableEq, Repr

/-- Is the outcome a failure (page.tsx lines 56-58 and 67)? A non-ok status
throws, and a thrown error lands in the same catch block. -/
def FetchOutcome.isFailure : FetchOutcome → Bool
  | .success _ => false
  | .httpErrorStatus _ => true
  | .networkThrown => true

/-- The static fallback message appended by the catch block
(page.tsx line 71). -/
def fallbackErrorText : String :=
  "Sorry, I encountered an error. Please try again."

/-- The JavaScript `String.prototype.trim()` used by the guard
`if (!input.trim()) return` (page.tsx line 40): strip leading and trailing
whitespace. Written directly on the character list so it computes by
reduction; `Char.isWhitespace` covers the whitespace characters the claims
exercise (space, tab, CR, LF). -/
def jsTrim (s : String) : String :=
  ⟨((s.data.dropWhile Char.isWhitespace).reverse.dropWhile Char.isWhitespace).reverse⟩

/-- The functional updater passed to `setMessages` at all three call sites
(page.tsx lines 43, 66, 73): `prev => [...prev, m]`. -/
def appendMessage (m : Msg) (prev : List Msg) : List Msg :=
  prev ++ [m]

/-- The `handleSubmit` function (page.tsx lines 38-77), run to completion on
a given fetch outcome. Returns the resulting state together with the body of
the request issued (`some question`), or `none` when the whitespace guard
`if (!input.trim()) return` fired and no request was made. The fetch body
uses the captured `input` value (line 53), read before `setInput('')`. -/
def handleSubmit (st : UIState) (outcome : FetchOutcome) : UIState × Option String :=
  if jsTrim st.input = "" then
    (st, none)
  else
    let userMessage : Msg := { role := .user, content := st.input }
    let st1 : UIState :=
      { messages := appendMessage userMessage st.messages
        input := ""
        isLoading := true }
    let st2 : UIState :=
      match outcome with
      | .success overview =>
        { st1 with messages := appendMessage { role := .assistant, content := overview } st1.messages }
      | .httpErrorStatus _ =>
        { st1 with messages := appendMessage { role := .assistant, content := fallbackErrorText } st1.messages }
      | .networkThrown =>
        { st1 with messages := appendMessage { role := .assistant, content := fallbackErrorText } st1.messages }
    ({ st2 with isLoading := false }, some st.input)

/-!
Event-level model of the UI for the in-flight-request claim. `handleSubmit`
above runs a whole submit-response cycle atomically; to speak about the
window while a request is outstanding, the cycle is split at the `await`:
the synchronous prefix of `handleSubmit` (guard, append user message, clear
input, `setIsLoading(true)`, issue the fetch) and the asynchronous rest
(append answer or fallback, `setIsLoading(false)` in `finally`).
-/

/-- The application state of the event model: the component state plus the
number of fetch requests currently in flight. -/
structure AppState where
  ui : UIState
  pending : Nat
deriving DecidableEq, Repr

/-- The initial application state: fresh component, no request in flight. -/
def initialApp : AppState :=
  { ui := initialState, pending := 0 }

/-- User-visible events: editing the input (`onChange`, page.tsx line 136),
a form-submission attempt (clicking the submit button or pressing Enter),
and the arrival of a response for an outstanding fetch. -/
inductive UIEvent where
  | typeInput (s : String)
  | submitAttempt
  | respond (o : FetchOutcome)
deriving DecidableEq, Repr

/-- One step of the event model. A `submitAttempt` reaches `handleSubmit`
only when the submit control is enabled: the button carries
`disabled={isLoading}` (page.tsx line 142) and a disabled sole submit button
also blocks the form's implicit submission, so while `isLoading` the event
is dropped. An enabled attempt runs the synchronous prefix of
`handleSubmit`. A `respond` event completes one outstanding fetch, running
the rest of `handleSubmit`; with no request in flight it has no effect. -/
def step (st : AppState) (e : UIEvent) : AppState :=
  match e with
  | .typeInput s => { st with ui := { st.ui with input := s } }
  | .submitAttempt =>
    if st.ui.isLoading then
      st
    else if jsTrim st.ui.input = "" then
      st
    else
      { ui :=
          { messages := appendMessage { role := .user, content := st.ui.input } st.ui.messages
            input := ""
            isLoading := true }
        pending := st.pending + 1 }
  | .respond o =>
    match st.pending with
    | 0 => st
    | n + 1 =>
      let content :=
        match o with
        | .success overview => overview
        | .httpErrorStatus _ => fallbackErrorText
        | .networkThrown => fallbackErrorText
      { ui :=
          { st.ui with
            messages := appendMessage { role := .assistant, content := content } st.ui.messages
            isLoading := false }
        pending := n }

/-- Run the event model from the initial state over a list of events. -/
def run (events : List UIEvent) : AppState :=
  events.foldl step initialApp

/-!
Spec-side definitions, used only to compare against the source-side ones.
-/

/-- Modelled from the spec: "each match's stored text field (empty string if
absent)" (spec section 4.1, step 3). -/
def storedText (m : QueryMatch) : String :=
  match m.metadata with
  | some md =>
    match md.text with
    | some t => t
    | none => ""
  | none => ""

/-- Modelled from the spec: "Build a context string by concatenating each
match's stored text field (empty string if absent), newline-joined, in the
order returned by the index" (spec section 4.1, step 3). -/
def contextSpec : List QueryMatch → String
  | [] => ""
  | [m] => storedText m
  | m :: m' :: rest => storedText m ++ "\n" ++ contextSpec (m' :: rest)

/-!
Helper lemmas.
-/

/-- The accumulator of `String.intercalate.go` factors out on the left. -/
theorem intercalate_go_factor (s p : String) :
    ∀ (l : List String) (acc : String),
      String.intercalate.go (p ++ acc) s l = p ++ String.intercalate.go acc s l := by
  intro l
  induction l with
  | nil => intro acc; rfl
  | cons x xs ih =>
    intro acc
    have h : p ++ acc ++ s ++ x = p ++ (acc ++ s ++ x) := by
      simp [String.append_assoc]
    show String.intercalate.go (p ++ acc ++ s ++ x) s xs =
        p ++ String.intercalate.go (acc ++ s ++ x) s xs
    rw [h]
    exact ih (acc ++ s ++ x)

/-- Unfolding of `String.intercalate` on a two-or-more-element list. -/
theorem intercalate_cons₂ (s a b : String) (l : List String) :
    String.intercalate s (a :: b :: l) = a ++ s ++ String.intercalate s (b :: l) := by
  show String.intercalate.go (a ++ s ++ b) s l = a ++ s ++ String.intercalate.go b s l
  exact intercalate_go_factor s (a ++ s) l b

/-- The two readings of a match's stored text agree: the source's
`match.metadata?.text || ''` and the spec's "stored text field (empty string
if absent)". -/
theorem matchText_eq_storedText (m : QueryMatch) : matchText m = storedText m := by
  cases m with
  | mk md score =>
    cases md with
    | none => rfl
    | some md' =>
      cases h : md'.text with
      | none => simp [matchText, storedText, Option.bind, h]
      | some t => simp [matchText, storedText, Option.bind, h]

/-- The source's context computation agrees with the spec's description on
every list of matches. -/
theorem contextFromMatches_eq_spec :
    ∀ ms : List QueryMatch, contextFromMatches ms = contextSpec ms := by
  intro ms
  induction ms with
  | nil => rfl
  | cons m rest ih =>
    cases rest with
    | nil =>
      simp [contextFromMatches, contextSpec, String.intercalate, String.intercalate.go,
        matchText_eq_storedText]
    | cons m' rest' =>
      have hstep : contextFromMatches (m :: m' :: rest') =
          matchText m ++ "\n" ++ contextFromMatches (m' :: rest') := by
        simp only [contextFromMatches, List.map_cons]
        exact intercalate_cons₂ "\n" (matchText m) (matchText m') (List.map matchText rest')
      rw [hstep, ih, matchText_eq_storedText, contextSpec]

/-- Every run of the handler either returns exactly the one generic error
response, or returns status 200 after all upstream steps succeeded. -/
theorem POST_dichotomy (env : Env) (body : Except Unit ReqBody) :
    (POST env body).1 = errorResponse ∨
    ((POST env body).1.status = 200 ∧
      ∃ b, body = .ok b ∧
        ∃ emb, env.embed b.question = .ok emb ∧
          ∃ item rest, emb.data = item :: rest ∧
            ∃ qr, env.query item.embedding 3 true = .ok qr ∧
              ∃ comp,
                env.complete
                    (promptMessages (contextFromMatches qr.«matches») b.question) = .ok comp ∧
                ∃ ch cr, comp.choices = ch :: cr ∧
                  (POST env body).1 =
                    { status := 200,
                      body := .success (mkResponse ch.message.content qr.«matches») }) := by
  cases body with
  | error e => exact Or.inl rfl
  | ok b =>
    cases hemb : env.embed b.question with
    | error e => exact Or.inl (by simp [POST, hemb])
    | ok emb =>
      cases hdata : emb.data with
      | nil => exact Or.inl (by simp [POST, hemb, hdata])
      | cons item rest =>
        cases hq : env.query item.embedding 3 true with
        | error e => exact Or.inl (by simp [POST, hemb, hdata, hq])
        | ok qr =>
          cases hc : env.complete (promptMessages (contextFromMatches qr.«matches») b.question) with
          | error e => exact Or.inl (by simp [POST, hemb, hdata, hq, hc])
          | ok comp =>
            cases hch : comp.choices with
            | nil => exact Or.inl (by simp [POST, hemb, hdata, hq, hc, hch])
            | cons ch cr =>
              refine Or.inr ⟨?_, b, rfl, emb, hemb, item, rest, hdata, qr, hq, comp, hc,
                ch, cr, hch, ?_⟩ <;>
                simp [POST, hemb, hdata, hq, hc, hch]

/-- Once the embedding and the index query have succeeded, the trace of
upstream calls is exactly embed, query, completion, in that order, whatever
the completion call returns. -/
theorem POST_trace (env : Env) (b : ReqBody) (emb : EmbeddingsResponse)
    (item : EmbeddingItem) (rest : List EmbeddingItem) (qr : QueryResponse)
    (h1 : env.embed b.question = .ok emb) (h2 : emb.data = item :: rest)
    (h3 : env.query item.embedding 3 true = .ok qr) :
    (POST env (.ok b)).2 =
      [.embedCalled b.question, .queryCalled item.embedding 3 true,
       .completeCalled (promptMessages (contextFromMatches qr.«matches») b.question)] := by
  cases hc : env.complete (promptMessages (contextFromMatches qr.«matches») b.question) with
  | error e => simp [POST, h1, h2, h3, hc]
  | ok comp =>
    cases hch : comp.choices with
    | nil => simp [POST, h1, h2, h3, hc, hch]
    | cons ch cr => simp [POST, h1, h2, h3, hc, hch]

/-- When every upstream step succeeds, the handler returns status 200 with
the envelope built from the first choice's content and the query matches. -/
theorem POST_success (env : Env) (b : ReqBody) (emb : EmbeddingsResponse)
    (item : EmbeddingItem) (rest : List EmbeddingItem) (qr : QueryResponse)
    (comp : CompletionResponse) (ch : CompletionChoice) (cr : List CompletionChoice)
    (h1 : env.embed b.question = .ok emb) (h2 : emb.data = item :: rest)
    (h3 : env.query item.embedding 3 true = .ok qr)
    (h4 : env.complete (promptMessages (contextFromMatches qr.«matches») b.question) = .ok comp)
    (h5 : comp.choices = ch :: cr) :
    (POST env (.ok b)).1 =
      { status := 200, body := .success (mkResponse ch.message.content qr.«matches») } := by
  simp [POST, h1, h2, h3, h4, h5]

/-- The sources list is a function of the matches' scores alone. -/
theorem sourcesFromMatches_score_only (ms₁ ms₂ : List QueryMatch)
    (h : ms₁.map QueryMatch.score = ms₂.map QueryMatch.score) :
    sourcesFromMatches ms₁ = sourcesFromMatches ms₂ := by
  have key : ∀ ms : List QueryMatch,
      sourcesFromMatches ms = (ms.map QueryMatch.score).map (fun z => ⟨z⟩) := by
    intro ms
    simp [sourcesFromMatches, List.map_map]
  rw [key, key, h]

/-!
Concrete environments, used by the counterexamples and witnesses below.
-/

/-- Three demo matches: full metadata, metadata without text, no metadata. -/
def demoMatches : List QueryMatch :=
  [{ metadata := some { text := some "F-1 passage", docId := some "doc-f1" }, score := 9 },
   { metadata := some { text := none, docId := some "doc-h1b" }, score := 7 },
   { metadata := none, score := 4 }]

/-- A demo question body. -/
def demoBody : ReqBody := { question := some "What is an F-1 visa?" }

/-- A demo environment on which every upstream call succeeds. -/
def demoEnv : Env :=
  { embed := fun _ => .ok { data := [{ embedding := [1, 2, 3] }] }
    query := fun _ _ _ => .ok { «matches» := demoMatches }
    complete := fun _ =>
      .ok { choices := [{ message := { content := some "An F-1 visa is a student visa." } }] } }

/-- First run for the score-only comparison: rich metadata. -/
def matchesMetaA : List QueryMatch :=
  [{ metadata := some { text := some "F-1 passage", docId := some "doc-f1" }, score := 9 },
   { metadata := some { text := some "H-1B passage", docId := some "doc-h1b" }, score := 7 }]

/-- Second run for the score-only comparison: different metadata, same
scores. -/
def matchesMetaB : List QueryMatch :=
  [{ metadata := some { text := some "O-1 passage", docId := some "doc-o1" }, score := 9 },
   { metadata := none, score := 7 }]

/-- Environment of the first comparison run. -/
def envMetaA : Env :=
  { embed := fun _ => .ok { data := [{ embedding := [5] }] }
    query := fun _ _ _ => .ok { «matches» := matchesMetaA }
    complete := fun _ => .ok { choices := [{ message := { content := some "answer A" } }] } }

/-- Environment of the second comparison run. -/
def envMetaB : Env :=
  { embed := fun _ => .ok { data := [{ embedding := [6] }] }
    query := fun _ _ _ => .ok { «matches» := matchesMetaB }
    complete := fun _ => .ok { choices := [{ message := { content := some "answer B" } }] } }

/-!
Claim theorems.
-/

/-- C2: once the index has answered, the context string passed to the
chat-completion call is exactly the matches' stored text fields (empty
string when absent) joined with newlines, in index order — no reordering,
no deduplication, no score filtering. `contextSpec` is the spec-side
description; the completion call's argument is read off the trace. -/
theorem contextPassedToCompletion (env : Env) (b : ReqBody)
    (emb : EmbeddingsResponse) (item : EmbeddingItem) (rest : List EmbeddingItem)
    (qr : QueryResponse)
    (h1 : env.embed b.question = .ok emb) (h2 : emb.data = item :: rest)
    (h3 : env.query item.embedding 3 true = .ok qr) :
    (∃ msgs, Event.completeCalled msgs ∈ (POST env (.ok b)).2) ∧
    ∀ msgs, Event.completeCalled msgs ∈ (POST env (.ok b)).2 →
      msgs = promptMessages (contextSpec qr.«matches») b.question := by
  rw [POST_trace env b emb item rest qr h1 h2 h3]
  constructor
  · exact ⟨promptMessages (contextFromMatches qr.«matches») b.question, by simp⟩
  · intro msgs hm
    simp only [List.mem_cons, List.not_mem_nil, or_false] at hm
    rcases hm with h | h | h
    · cases h
    · cases h
    · cases h
      rw [contextFromMatches_eq_spec]

/-- C2 witness: on the demo environment the completion call receives the
spec-described context built from the three demo matches. -/
theorem contextPassedToCompletion_witness :
    (∃ msgs, Event.completeCalled msgs ∈ (POST demoEnv (.ok demoBody)).2) ∧
    ∀ msgs, Event.completeCalled msgs ∈ (POST demoEnv (.ok demoBody)).2 →
      msgs = promptMessages (contextSpec demoMatches) demoBody.question :=
  contextPassedToCompletion demoEnv demoBody { data := [{ embedding := [1, 2, 3] }] }
    { embedding := [1, 2, 3] } [] { «matches» := demoMatches } rfl rfl rfl

/-- C3: every run of the handler either succeeds with status 200 — which
requires the body to parse and the embedding, index-query and completion
calls all to succeed — or returns the single generic
`{ error: 'Internal server error' }` response with status 500, identical
whichever step failed. -/
theorem uniformUpstreamFailure (env : Env) (body : Except Unit ReqBody) :
    (POST env body).1 = errorResponse ∨
    ((POST env body).1.status = 200 ∧
      ∃ b, body = .ok b ∧
        ∃ emb, env.embed b.question = .ok emb ∧
          ∃ item rest, emb.data = item :: rest ∧
            ∃ qr, env.query item.embedding 3 true = .ok qr ∧
              ∃ comp,
                env.complete
                    (promptMessages (contextFromMatches qr.«matches») b.question) = .ok comp ∧
                ∃ ch cr, comp.choices = ch :: cr ∧
                  (POST env body).1 =
                    { status := 200,
                      body := .success (mkResponse ch.message.content qr.«matches») }) :=
  POST_dichotomy env body

/-- C4: every successful response carries `key_points` and `follow_up`, and
both are the empty sequence. -/
theorem emptyExtensionFields (env : Env) (body : Except Unit ReqBody)
    (r : ChatResponseBody) (h : (POST env body).1.body = .success r) :
    r.response.key_points = [] ∧ r.response.follow_up = [] := by
  rcases POST_dichotomy env body with hE |
    ⟨_, b, _, emb, _, item, rest, _, qr, _, comp, _, ch, cr, _, hS⟩
  · rw [hE] at h
    exact absurd h (by simp [errorResponse])
  · rw [hS] at h
    have h' : RespBody.success (mkResponse ch.message.content qr.«matches») =
        RespBody.success r := h
    injection h' with h''
    rw [← h'']
    exact ⟨rfl, rfl⟩

/-- C4 witness: the demo run succeeds and its envelope has empty
`key_points` and `follow_up`. -/
theorem emptyExtensionFields_witness :
    (mkResponse (some "An F-1 visa is a student visa.") demoMatches).response.key_points = [] ∧
    (mkResponse (some "An F-1 visa is a student visa.") demoMatches).response.follow_up = [] :=
  emptyExtensionFields demoEnv (.ok demoBody)
    (mkResponse (some "An F-1 visa is a student visa.") demoMatches) rfl

/-- C5: `metadata.sources` exposes only the scores: two successful runs
whose index results agree on the scores (however their stored metadata —
passage text and document identity — differ) produce identical
`metadata.sources`. -/
theorem sourcesScoreOnly (env₁ env₂ : Env) (b₁ b₂ : ReqBody)
    (emb₁ emb₂ : EmbeddingsResponse) (item₁ item₂ : EmbeddingItem)
    (rest₁ rest₂ : List EmbeddingItem) (qr₁ qr₂ : QueryResponse)
    (comp₁ comp₂ : CompletionResponse) (ch₁ ch₂ : CompletionChoice)
    (cr₁ cr₂ : List CompletionChoice)
    (h1 : env₁.embed b₁.question = .ok emb₁) (h2 : emb₁.data = item₁ :: rest₁)
    (h3 : env₁.query item₁.embedding 3 true = .ok qr₁)
    (h4 : env₁.complete
        (promptMessages (contextFromMatches qr₁.«matches») b₁.question) = .ok comp₁)
    (h5 : comp₁.choices = ch₁ :: cr₁)
    (g1 : env₂.embed b₂.question = .ok emb₂) (g2 : emb₂.data = item₂ :: rest₂)
    (g3 : env₂.query item₂.embedding 3 true = .ok qr₂)
    (g4 : env₂.complete
        (promptMessages (contextFromMatches qr₂.«matches») b₂.question) = .ok comp₂)
    (g5 : comp₂.choices = ch₂ :: cr₂)
    (hscore : qr₁.«matches».map QueryMatch.score = qr₂.«matches».map QueryMatch.score) :
    sourcesOf (POST env₁ (.ok b₁)).1 = sourcesOf (POST env₂ (.ok b₂)).1 := by
  rw [POST_success env₁ b₁ emb₁ item₁ rest₁ qr₁ comp₁ ch₁ cr₁ h1 h2 h3 h4 h5,
    POST_success env₂ b₂ emb₂ item₂ rest₂ qr₂ comp₂ ch₂ cr₂ g1 g2 g3 g4 g5]
  show some (sourcesFromMatches qr₁.«matches») = some (sourcesFromMatches qr₂.«matches»)
  rw [sourcesFromMatches_score_only qr₁.«matches» qr₂.«matches» hscore]

/-- C5 witness: two runs whose matches differ in passage text and document
identity but share scores 9 and 7 yield the same `metadata.sources`. -/
theorem sourcesScoreOnly_witness :
    sourcesOf (POST envMetaA (.ok demoBody)).1 = sourcesOf (POST envMetaB (.ok demoBody)).1 :=
  sourcesScoreOnly envMetaA envMetaB demoBody demoBody
    { data := [{ embedding := [5] }] } { data := [{ embedding := [6] }] }
    { embedding := [5] } { embedding := [6] } [] []
    { «matches» := matchesMetaA } { «matches» := matchesMetaB }
    { choices := [{ message := { content := some "answer A" } }] }
    { choices := [{ message := { content := some "answer B" } }] }
    { message := { content := some "answer A" } } { message := { content := some "answer B" } }
    [] []
    rfl rfl rfl rfl rfl rfl rfl rfl rfl rfl rfl

/-- An environment on which every call succeeds but the completion model
returns the empty string as its message content. -/
def envEmptyAnswer : Env :=
  { embed := fun _ => .ok { data := [{ embedding := [1] }] }
    query := fun _ _ _ => .ok { «matches» := demoMatches }
    complete := fun _ => .ok { choices := [{ message := { content := some "" } }] } }

/-- C1 counterexample: on a non-empty question the handler can succeed
(status 200) while `response.overview` is the empty string — the handler
forwards `completion.choices[0].message.content` with no non-emptiness
check, so a model reply of `""` refutes "overview is non-empty text". -/
theorem overviewCanBeEmpty :
    demoBody.question = some "What is an F-1 visa?" ∧
    (POST envEmptyAnswer (.ok demoBody)).1.status = 200 ∧
    ¬ ∃ s, overviewOf (POST envEmptyAnswer (.ok demoBody)).1 = some s ∧ s ≠ "" := by
  refine ⟨rfl, rfl, ?_⟩
  rintro ⟨s, hs, hne⟩
  have h0 : overviewOf (POST envEmptyAnswer (.ok demoBody)).1 = some "" := rfl
  rw [h0] at hs
  exact hne (Option.some.inj hs).symm

/-- C1 amended: for every non-empty question on which the handler succeeds,
`overview` is exactly the completion's message content (which the handler
does not check for emptiness), and provided the index honors the requested
`topK` by returning at most 3 matches, `metadata.sources` has length at
most 3. -/
theorem overviewEchoAndSourcesBound (env : Env) (b : ReqBody) (q : String)
    (emb : EmbeddingsResponse) (item : EmbeddingItem) (rest : List EmbeddingItem)
    (qr : QueryResponse) (comp : CompletionResponse) (ch : CompletionChoice)
    (cr : List CompletionChoice)
    (hq : b.question = some q) (hne : q ≠ "")
    (h1 : env.embed b.question = .ok emb) (h2 : emb.data = item :: rest)
    (h3 : env.query item.embedding 3 true = .ok qr)
    (hlen : qr.«matches».length ≤ 3)
    (h4 : env.complete (promptMessages (contextFromMatches qr.«matches») b.question) = .ok comp)
    (h5 : comp.choices = ch :: cr) :
    (POST env (.ok b)).1.status = 200 ∧
    overviewOf (POST env (.ok b)).1 = ch.message.content ∧
    ∃ srcs, sourcesOf (POST env (.ok b)).1 = some srcs ∧ srcs.length ≤ 3 := by
  have hres := POST_success env b emb item rest qr comp ch cr h1 h2 h3 h4 h5
  refine ⟨by rw [hres], by rw [hres]; rfl, sourcesFromMatches qr.«matches», by rw [hres]; rfl, ?_⟩
  have hlen' : (sourcesFromMatches qr.«matches»).length = qr.«matches».length := by
    simp [sourcesFromMatches]
  rw [hlen']
  exact hlen

/-- C1 amended witness: the demo run succeeds with the demo answer as
overview and three sources. -/
theorem overviewEchoAndSourcesBound_witness :
    (POST demoEnv (.ok demoBody)).1.status = 200 ∧
    overviewOf (POST demoEnv (.ok demoBody)).1 = some "An F-1 visa is a student visa." ∧
    ∃ srcs, sourcesOf (POST demoEnv (.ok demoBody)).1 = some srcs ∧ srcs.length ≤ 3 :=
  overviewEchoAndSourcesBound demoEnv demoBody "What is an F-1 visa?"
    { data := [{ embedding := [1, 2, 3] }] } { embedding := [1, 2, 3] } []
    { «matches» := demoMatches }
    { choices := [{ message := { content := some "An F-1 visa is a student visa." } }] }
    { message := { content := some "An F-1 visa is a student visa." } } []
    rfl (by decide) rfl rfl rfl (by decide) rfl rfl

/-- A parsed body whose `question` is the empty string. -/
def emptyQuestionBody : ReqBody := { question := some "" }

/-- C9: the handler validates nothing about `question`: whatever the parsed
body holds — the empty string and an absent key included — every run calls
the embedding service with that raw value, and when every upstream step
succeeds the run performs the full embed-query-complete sequence and
returns status 200, so an error can only come from a throwing step. -/
theorem noQuestionValidation (env : Env) (b : ReqBody)
    (emb : EmbeddingsResponse) (item : EmbeddingItem) (rest : List EmbeddingItem)
    (qr : QueryResponse) (comp : CompletionResponse) (ch : CompletionChoice)
    (cr : List CompletionChoice)
    (h1 : env.embed b.question = .ok emb) (h2 : emb.data = item :: rest)
    (h3 : env.query item.embedding 3 true = .ok qr)
    (h4 : env.complete (promptMessages (contextFromMatches qr.«matches») b.question) = .ok comp)
    (h5 : comp.choices = ch :: cr) :
    (∀ env' : Env, Event.embedCalled b.question ∈ (POST env' (.ok b)).2) ∧
    (POST env (.ok b)).2 =
      [.embedCalled b.question, .queryCalled item.embedding 3 true,
       .completeCalled (promptMessages (contextFromMatches qr.«matches») b.question)] ∧
    (POST env (.ok b)).1.status = 200 := by
  refine ⟨?_, POST_trace env b emb item rest qr h1 h2 h3,
    by rw [POST_success env b emb item rest qr comp ch cr h1 h2 h3 h4 h5]⟩
  intro env'
  cases he : env'.embed b.question with
  | error e => simp [POST, he]
  | ok emb' =>
    cases hd : emb'.data with
    | nil => simp [POST, he, hd]
    | cons it' rest' =>
      cases hq' : env'.query it'.embedding 3 true with
      | error e => simp [POST, he, hd, hq']
      | ok qr' =>
        cases hc' : env'.complete
            (promptMessages (contextFromMatches qr'.«matches») b.question) with
        | error e => simp [POST, he, hd, hq', hc']
        | ok comp' =>
          cases hch' : comp'.choices with
          | nil => simp [POST, he, hd, hq', hc', hch']
          | cons ch' cr' => simp [POST, he, hd, hq', hc', hch']

/-- C9 witness: with the empty-string question, the demo environment's run
still calls the embedding service with `""` and ends in status 200. -/
theorem noQuestionValidation_witness :
    Event.embedCalled (some "") ∈ (POST demoEnv (.ok emptyQuestionBody)).2 ∧
    (POST demoEnv (.ok emptyQuestionBody)).1.status = 200 :=
  ⟨(noQuestionValidation demoEnv emptyQuestionBody
      { data := [{ embedding := [1, 2, 3] }] } { embedding := [1, 2, 3] } []
      { «matches» := demoMatches }
      { choices := [{ message := { content := some "An F-1 visa is a student visa." } }] }
      { message := { content := some "An F-1 visa is a student visa." } } []
      rfl rfl rfl rfl rfl).1 demoEnv,
   (noQuestionValidation demoEnv emptyQuestionBody
      { data := [{ embedding := [1, 2, 3] }] } { embedding := [1, 2, 3] } []
      { «matches» := demoMatches }
      { choices := [{ message := { content := some "An F-1 visa is a student visa." } }] }
      { message := { content := some "An F-1 visa is a student visa." } } []
      rfl rfl rfl rfl rfl).2.2⟩

/-- C6: both the submit handler and every step of the event model only ever
append to the message list: the previous messages survive unchanged, in
order, as a prefix of the new list. -/
theorem messagesAppendOnly :
    (∀ (st : UIState) (o : FetchOutcome),
      ∃ t, (handleSubmit st o).1.messages = st.messages ++ t) ∧
    (∀ (st : AppState) (e : UIEvent),
      ∃ t, (step st e).ui.messages = st.ui.messages ++ t) := by
  constructor
  · intro st o
    by_cases h : jsTrim st.input = ""
    · exact ⟨[], by simp [handleSubmit, h]⟩
    · cases o with
      | success overview =>
        exact ⟨[{ role := .user, content := st.input }, { role := .assistant, content := overview }],
          by simp [handleSubmit, h, appendMessage]⟩
      | httpErrorStatus code =>
        exact ⟨[{ role := .user, content := st.input },
            { role := .assistant, content := fallbackErrorText }],
          by simp [handleSubmit, h, appendMessage]⟩
      | networkThrown =>
        exact ⟨[{ role := .user, content := st.input },
            { role := .assistant, content := fallbackErrorText }],
          by simp [handleSubmit, h, appendMessage]⟩
  · intro st e
    cases e with
    | typeInput s => exact ⟨[], by simp [step]⟩
    | submitAttempt =>
      by_cases hl : st.ui.isLoading
      · exact ⟨[], by simp [step, hl]⟩
      · by_cases h : jsTrim st.ui.input = ""
        · exact ⟨[], by simp [step, hl, h]⟩
        · exact ⟨[{ role := .user, content := st.ui.input }],
            by simp [step, hl, h, appendMessage]⟩
    | respond o =>
      cases hp : st.pending with
      | zero => exact ⟨[], by simp [step, hp]⟩
      | succ n =>
        cases o with
        | success overview =>
          exact ⟨[{ role := .assistant, content := overview }], by simp [step, hp, appendMessage]⟩
        | httpErrorStatus code =>
          exact ⟨[{ role := .assistant, content := fallbackErrorText }],
            by simp [step, hp, appendMessage]⟩
        | networkThrown =>
          exact ⟨[{ role := .assistant, content := fallbackErrorText }],
            by simp [step, hp, appendMessage]⟩

/-- The number of in-flight requests is 1 exactly while the UI is loading,
0 otherwise. -/
def pendingMatchesLoading (st : AppState) : Prop :=
  st.pending = if st.ui.isLoading then 1 else 0

/-- Every event preserves the loading/in-flight correspondence. -/
theorem step_preserves_pending (st : AppState) (e : UIEvent)
    (h : pendingMatchesLoading st) : pendingMatchesLoading (step st e) := by
  cases e with
  | typeInput s => simpa [pendingMatchesLoading, step] using h
  | submitAttempt =>
    by_cases hl : st.ui.isLoading
    · simpa [step, hl] using h
    · by_cases hi : jsTrim st.ui.input = ""
      · simpa [step, hl, hi] using h
      · simp only [pendingMatchesLoading, step, hl, hi, if_false, if_true, ite_false,
          ite_true] at h ⊢
        simp [hl] at h
        simp [h]
  | respond o =>
    cases hp : st.pending with
    | zero => simpa [step, hp] using h
    | succ n =>
      rw [pendingMatchesLoading, hp] at h
      have hn : n = 0 := by
        by_cases hl : st.ui.isLoading
        · rw [if_pos hl] at h; omega
        · rw [if_neg hl] at h; omega
      cases o <;> simp [pendingMatchesLoading, step, hp, hn]

/-- The correspondence holds at every state reached by folding events. -/
theorem foldl_preserves_pending :
    ∀ (events : List UIEvent) (st : AppState),
      pendingMatchesLoading st → pendingMatchesLoading (events.foldl step st) := by
  intro events
  induction events with
  | nil => intro st h; exact h
  | cons e es ih => intro st h; exact ih (step st e) (step_preserves_pending st e h)

/-- C7: no sequence of user events starting from the initial UI state ever
has two requests in flight: the submit control is disabled exactly while a
request is outstanding, so every reachable state has at most one pending
request. -/
theorem singleRequestInFlight : ∀ events : List UIEvent, (run events).pending ≤ 1 := by
  intro events
  have h : pendingMatchesLoading (run events) :=
    foldl_preserves_pending events initialApp
      (by simp [pendingMatchesLoading, initialApp, initialState])
  rw [pendingMatchesLoading] at h
  by_cases hl : (run events).ui.isLoading
  · rw [if_pos hl] at h; omega
  · rw [if_neg hl] at h; omega

/-- C8 counterexample: on a failing fetch the UI's appended assistant
message reads "Sorry, I encountered an error. Please try again." —
period and capital P — not the claimed text "Sorry, I encountered an
error, please try again", which appears in no appended message. -/
theorem fallbackTextDiffersFromClaim :
    FetchOutcome.isFailure .networkThrown = true ∧
    (handleSubmit { messages := [], input := "hi", isLoading := false } .networkThrown).1.messages =
      [{ role := .user, content := "hi" },
       { role := .assistant, content := "Sorry, I encountered an error. Please try again." }] ∧
    ¬ ∃ m ∈ (handleSubmit { messages := [], input := "hi", isLoading := false }
        .networkThrown).1.messages,
      m.content = "Sorry, I encountered an error, please try again" := by
  decide

/-- C8 amended: whenever the backend request fails — non-ok HTTP status or
thrown error alike — the UI appends the user message followed by exactly
one assistant message whose content is the static text "Sorry, I
encountered an error. Please try again.", clears the loading state, and
appends no other (partial) answer. -/
theorem errorFallbackAppend (st : UIState) (o : FetchOutcome)
    (hg : jsTrim st.input ≠ "") (hf : o.isFailure = true) :
    (handleSubmit st o).1.messages =
      st.messages ++ [{ role := Role.user, content := st.input },
                      { role := Role.assistant, content := fallbackErrorText }] ∧
    (handleSubmit st o).1.isLoading = false := by
  cases o with
  | success overview => simp [FetchOutcome.isFailure] at hf
  | httpErrorStatus code =>
    constructor <;> simp [handleSubmit, hg, appendMessage]
  | networkThrown =>
    constructor <;> simp [handleSubmit, hg, appendMessage]

/-- C8 amended witness: a 500 response appends the user message and the
static fallback message and clears loading. -/
theorem errorFallbackAppend_witness :
    (handleSubmit { messages := [], input := "hi", isLoading := false }
        (.httpErrorStatus 500)).1.messages =
      [] ++ [{ role := Role.user, content := "hi" },
             { role := Role.assistant, content := fallbackErrorText }] ∧
    (handleSubmit { messages := [], input := "hi", isLoading := false }
        (.httpErrorStatus 500)).1.isLoading = false :=
  errorFallbackAppend { messages := [], input := "hi", isLoading := false }
    (.httpErrorStatus 500) (by decide) rfl

/-- C10: submitting while the input is empty or all whitespace is a no-op:
the guard `if (!input.trim()) return` fires, no request is issued, and the
whole component state — messages, input and loading flag — is unchanged. -/
theorem whitespaceSubmitNoOp (st : UIState) (o : FetchOutcome)
    (h : jsTrim st.input = "") : handleSubmit st o = (st, none) := by
  simp [handleSubmit, h]

/-- C10 witness: a whitespace-only input value leaves the state untouched
and issues no request. -/
theorem whitespaceSubmitNoOp_witness :
    handleSubmit { messages := [], input := "  \t ", isLoading := false } .networkThrown =
      ({ messages := [], input := "  \t ", isLoading := false }, none) :=
  whitespaceSubmitNoOp { messages := [], input := "  \t ", isLoading := false }
    .networkThrown (by decide)

end ImmiAI
